import Mathlib

/-!
Verification of the incremental-recompilation core: a shallow embedding of
the stable hasher (`lib/Basic/StableHasher.cpp`, `StableHasher.h`), the
stable path (`include/swift/Basic/StablePath.h`), the driver dependency
artifact codec (`FineGrainedDependencyFormat.cpp`,
`DriverDependencyGraphFormat.h`) and the dependency verifier
(`DependencyVerifier.cpp`), together with theorems about their behaviour.

Machine integers are modelled as `Nat` with explicit reduction `% 2^64`
where 64-bit overflow matters.
-/

/-- 2^64, the modulus of `uint64_t` arithmetic. -/
def U64 : Nat := 18446744073709551616

/-- 2^56, boundary between the tail (low 56 bits) and the byte count
(high 8 bits) of `tailAndByteCount`. -/
def U56 : Nat := 72057594037927936

/-- The four 64-bit state words of `SipHasher::State` (`StableHasher.h`). -/
structure SipState where
  v0 : Nat
  v1 : Nat
  v2 : Nat
  v3 : Nat
deriving DecidableEq, Repr

/-- `SipHasher`: hash state plus the packed `tailAndByteCount` word. -/
structure SipHasher where
  state : SipState
  tailAndByteCount : Nat
deriving DecidableEq, Repr

/-- `rotl64` from `StableHasher.cpp`: `(x << n) | (x >> (64 - n))` in
`uint64_t` arithmetic. -/
def rotl64 (x n : Nat) : Nat :=
  (((x <<< n) % U64) ||| (x >>> (64 - n))) % U64

/-- One `sip_round` (`StableHasher.cpp`).  Note the source is written
`v0 = v0 &+ v1;` which in C++ parses as `v0 & (+v1)`, i.e. bitwise AND,
not a wrapping add; the embedding follows the source as compiled. -/
def sip_round (s : SipState) : SipState :=
  let v0 := s.v0 &&& s.v1
  let v1 := rotl64 s.v1 13
  let v1 := v1 ^^^ v0
  let v0 := rotl64 v0 32
  let v2 := s.v2 &&& s.v3
  let v3 := rotl64 s.v3 16
  let v3 := v3 ^^^ v2
  let v0 := v0 &&& v3
  let v3 := rotl64 v3 21
  let v3 := v3 ^^^ v0
  let v2 := v2 &&& v1
  let v1 := rotl64 v1 17
  let v1 := v1 ^^^ v2
  let v2 := rotl64 v2 32
  ⟨v0, v1, v2, v3⟩

/-- `SipHasher::compress` (`StableHasher.cpp`): xor the value into `v3`,
run two rounds, xor it into `v0`. -/
def SipHasher.compress (value : Nat) (h : SipHasher) : SipHasher :=
  let s := { h.state with v3 := h.state.v3 ^^^ value }
  let s := sip_round (sip_round s)
  { h with state := { s with v0 := s.v0 ^^^ value } }

/-- `SipHasher::defaultHasher()`: the seeded initial state (both seeds 0,
so the xors in the constructor leave the constants unchanged). -/
def SipHasher.defaultHasher : SipHasher :=
  { state :=
      { v0 := 0x736f6d6570736575
        v1 := 0x646f72616e646f6d
        v2 := 0x6c7967656e657261
        v3 := 0x7465646279746573 }
    tailAndByteCount := 0 }

/-- `getNumBytes()`: the high 8 bits of `tailAndByteCount`. -/
def SipHasher.getNumBytes (h : SipHasher) : Nat :=
  h.tailAndByteCount >>> 56

/-- `getTailSize()`: `tailAndByteCount & ~(0xFF << 56)` — the low 56 bits
(the tail value, despite the name). -/
def SipHasher.getTailSize (h : SipHasher) : Nat :=
  h.tailAndByteCount % U56

/-- `fillBitsFromBuffer(fill, bits)` from `SipHasher::combine`
(`StableHasher.h`): for `1 <= fill <= 7` ORs the first `fill` bytes of the
buffer into a little-endian word; any other `fill` (0, or 8 and above, as
produced by the callers) falls through every case and yields 0. -/
def fillBitsFromBuffer (fill : Nat) (bits : List Nat) : Nat :=
  if 1 ≤ fill ∧ fill ≤ 7 then
    (List.range fill).foldl (fun acc i => acc ||| ((bits.getD i 0) <<< (8 * i))) 0
  else 0

/-- `SipHasher::combine<N>(uint8_t (&bits)[N])` (`StableHasher.h`), the
byte-buffer absorption primitive, for a buffer given as a list of bytes
(`1 <= N <= 8` at every use site).  All `uint64_t` arithmetic (including
the underflowing `N - needed` subtraction) is carried out mod 2^64. -/
def SipHasher.append (bits : List Nat) (h : SipHasher) : SipHasher :=
  let N := bits.length
  let needed := (8 + U64 - h.getTailSize) % U64
  let nhead := min N needed
  let head := fillBitsFromBuffer nhead bits
  let tbc1 := ((h.tailAndByteCount ||| head) + (8 <<< 56)) % U64
  let h1 : SipHasher := { h with tailAndByteCount := tbc1 }
  let h2 := h1.compress ((((head <<< 32) % U64) ||| h1.getTailSize) % U64)
  let ntail := (N + U64 - needed) % U64
  let tail := fillBitsFromBuffer ntail (bits.drop needed)
  { h2 with tailAndByteCount := ((((ntail + 8) % U64) <<< 56) % U64 ||| (tail >>> 32)) % U64 }

/-- `SipHasher::finalize() &&` (`StableHasher.cpp`). -/
def SipHasher.finalize (h : SipHasher) : Nat :=
  let h1 := h.compress h.tailAndByteCount
  let s := { h1.state with v2 := h1.state.v2 ^^^ 0xff }
  let s := sip_round (sip_round (sip_round (sip_round s)))
  s.v0 ^^^ s.v1 ^^^ s.v2 ^^^ s.v3

/-- Little-endian byte decomposition of a `uint64_t`, as produced by the
`std::memcpy` in the integral `combine` overload on a little-endian host. -/
def leBytes8 (x : Nat) : List Nat :=
  [x % 256, (x >>> 8) % 256, (x >>> 16) % 256, (x >>> 24) % 256,
   (x >>> 32) % 256, (x >>> 40) % 256, (x >>> 48) % 256, (x >>> 56) % 256]

/-- Little-endian byte decomposition of a 32-bit `int`, as produced by the
`std::memcpy` in the integral `combine` overload for `int` arguments. -/
def leBytes4 (x : Nat) : List Nat :=
  [x % 256, (x >>> 8) % 256, (x >>> 16) % 256, (x >>> 24) % 256]

/-- The integral `combine` instantiated at `uint8_t` (also reached by the
enum overload, which absorbs the underlying integer value). -/
def SipHasher.combineU8 (b : Nat) (h : SipHasher) : SipHasher :=
  h.append [b % 256]

/-- The integral `combine` instantiated at `uint64_t`. -/
def SipHasher.combineU64 (x : Nat) (h : SipHasher) : SipHasher :=
  h.append (leBytes8 (x % U64))

/-- The integral `combine` instantiated at `int` (32-bit). -/
def SipHasher.combineInt32 (x : Nat) (h : SipHasher) : SipHasher :=
  h.append (leBytes4 (x % 4294967296))


/-! ## Stable paths (`include/swift/Basic/StablePath.h`) -/

/-- An argument absorbed by the variadic `hash_all(extras...)`: the extras
used with stable paths are integral values, hashed through the integral
`combine` overloads. -/
inductive HAtom
  | u8 (b : Nat)
  | u64 (x : Nat)
deriving DecidableEq, Repr

/-- Absorb one `hash_all` argument through the matching `combine` overload. -/
def SipHasher.combineAtom (h : SipHasher) : HAtom → SipHasher
  | .u8 b => h.combineU8 b
  | .u64 x => h.combineU64 x

/-- `StablePath::hash_all(extras...)`: a fresh default hasher absorbs every
extra in order and is finalized. -/
def hash_all (atoms : List HAtom) : Nat :=
  (atoms.foldl SipHasher.combineAtom SipHasher.defaultHasher).finalize

/-- `StablePath::Component`, with its `uint8_t` underlying values. -/
inductive Component
  | tombstone
  | module
  | container
  | name
deriving DecidableEq, Repr

/-- The underlying `uint8_t` value of a `Component`, as absorbed by the
enum `combine` overload. -/
def Component.toByte : Component → Nat
  | .tombstone => 0
  | .module => 1
  | .container => 2
  | .name => 3

/-- `StablePath`: a parent ID (`uint64_t` fingerprint), a component kind,
and the 64-bit `ExtraData` hash. -/
structure StablePath where
  parent : Nat
  kind : Component
  extraData : Nat
deriving DecidableEq, Repr

/-- The default-constructed `StablePath()`: the special tombstone value. -/
def StablePath.tombstoneVal : StablePath :=
  ⟨0, .tombstone, 0⟩

/-- `StablePath::fingerprint()`.  The `Tombstone` case is
`llvm_unreachable` in the source, modelled as `none`; `Module` absorbs
only `(Kind, ExtraData)`, while `Container` and `Name` absorb
`(Parent.Fingerprint, Kind, ExtraData)`. -/
def StablePath.fingerprintOpt (p : StablePath) : Option Nat :=
  match p.kind with
  | .tombstone => none
  | .module =>
      some (SipHasher.finalize
        (SipHasher.combineU64 p.extraData
          (SipHasher.combineU8 Component.module.toByte SipHasher.defaultHasher)))
  | .container =>
      some (SipHasher.finalize
        (SipHasher.combineU64 p.extraData
          (SipHasher.combineU8 Component.container.toByte
            (SipHasher.combineU64 p.parent SipHasher.defaultHasher))))
  | .name =>
      some (SipHasher.finalize
        (SipHasher.combineU64 p.extraData
          (SipHasher.combineU8 Component.name.toByte
            (SipHasher.combineU64 p.parent SipHasher.defaultHasher))))

/-- `StablePath::root(extras...)`: parent ID 0, kind `Module`. -/
def StablePath.root (atoms : List HAtom) : StablePath :=
  ⟨0, .module, hash_all atoms⟩

/-- `StablePath::container(parent, extras...)`: fingerprints the parent
(unreachable — hence `none` — when the parent is the tombstone). -/
def StablePath.container (parent : StablePath) (atoms : List HAtom) : Option StablePath :=
  (parent.fingerprintOpt).map fun fp => ⟨fp, .container, hash_all atoms⟩

/-- `StablePath::name(parent, extras...)`.  As written in the source this
constructs its result with kind `Component::Container`, exactly like
`container`. -/
def StablePath.name (parent : StablePath) (atoms : List HAtom) : Option StablePath :=
  (parent.fingerprintOpt).map fun fp => ⟨fp, .container, hash_all atoms⟩

/-- `llvm::DenseMapInfo<swift::StablePath>::getEmptyKey()`: the
default-constructed path. -/
def denseMapGetEmptyKey : StablePath :=
  StablePath.tombstoneVal

/-- `llvm::DenseMapInfo<swift::StablePath>::getTombstoneKey()`: the
default-constructed path. -/
def denseMapGetTombstoneKey : StablePath :=
  StablePath.tombstoneVal

/-- `llvm::DenseMapInfo<swift::StablePath>::getHashValue`: truncates the
64-bit fingerprint to `unsigned` (32 bits); `none` when `fingerprint()`
would hit the tombstone `llvm_unreachable`. -/
def denseMapGetHashValue (p : StablePath) : Option Nat :=
  p.fingerprintOpt.map (· % 4294967296)

/-- The `StablePath` values constructible through the public interface of
the class: the default (tombstone) constructor and the three
smart-constructors (the private field-wise constructor is used only by
them). -/
inductive ReachablePath : StablePath → Prop
  | tomb : ReachablePath StablePath.tombstoneVal
  | root (atoms : List HAtom) : ReachablePath (StablePath.root atoms)
  | container (p : StablePath) (atoms : List HAtom) (q : StablePath) :
      ReachablePath p → StablePath.container p atoms = some q → ReachablePath q
  | name (p : StablePath) (atoms : List HAtom) (q : StablePath) :
      ReachablePath p → StablePath.name p atoms = some q → ReachablePath q

/-- `fingerprint()` modelled from the spec's words: "The `fingerprint()`
method rehashes `(parent_id, kind, extra_hash)` to produce the ID" — a
fresh default hasher absorbing the parent ID, the kind byte, and the
extra hash, in order. -/
def specHashTriple (parentId kindByte extraHash : Nat) : Nat :=
  SipHasher.finalize
    (SipHasher.combineU64 extraHash
      (SipHasher.combineU8 kindByte
        (SipHasher.combineU64 parentId SipHasher.defaultHasher)))

/-! ## Driver dependency artifact codec (`FineGrainedDependencyFormat.cpp`,
`include/swift/Driver/DriverDependencyGraphFormat.h`)

The bitstream framing (signature bytes, BLOCKINFO block, abbreviations,
VBR packing) is provided by the LLVM bitstream library; the artifact is
modelled at the level of the sequence of records the repository's code
emits and consumes. -/

/-- `DRIVER_DEPENDENCY_FORMAT_VERSION_MAJOR` (`DriverDependencyGraphFormat.h`). -/
def DRIVER_DEPENDENCY_FORMAT_VERSION_MAJOR : Nat := 1

/-- `DRIVER_DEPENDENCY_FORMAT_VERSION_MINOR` (`DriverDependencyGraphFormat.h`). -/
def DRIVER_DEPENDENCY_FORMAT_VERSION_MINOR : Nat := 0

/-- `NodeKind` of the fine-grained dependency graph. Modelled from the
spec: the enum itself (`FineGrainedDependencies.h`) is not under `src/`;
the spec lists exactly these seven kinds, and `kindCount` is the number of
cases, used for the decoder's range check. -/
inductive NodeKind
  | topLevel
  | nominal
  | potentialMember
  | member
  | dynamicLookup
  | externalDepend
  | sourceFileProvide
deriving DecidableEq, Repr

/-- The numeric value of a `NodeKind`, in declaration order. -/
def NodeKind.toNat : NodeKind → Nat
  | .topLevel => 0
  | .nominal => 1
  | .potentialMember => 2
  | .member => 3
  | .dynamicLookup => 4
  | .externalDepend => 5
  | .sourceFileProvide => 6

/-- `getNodeKind` (`FineGrainedDependencyFormat.cpp`): accepts raw values
below `kindCount` (= 7). -/
def getNodeKind (nodeKind : Nat) : Option NodeKind :=
  match nodeKind with
  | 0 => some .topLevel
  | 1 => some .nominal
  | 2 => some .potentialMember
  | 3 => some .member
  | 4 => some .dynamicLookup
  | 5 => some .externalDepend
  | 6 => some .sourceFileProvide
  | _ => none

/-- `DeclAspect`. Modelled from the spec: `aspect ∈ { Interface,
Implementation }`, `aspectCount` = 2. -/
inductive DeclAspect
  | interface
  | implementation
deriving DecidableEq, Repr

/-- The numeric value of a `DeclAspect`, in declaration order. -/
def DeclAspect.toNat : DeclAspect → Nat
  | .interface => 0
  | .implementation => 1

/-- `getDeclAspect` (`FineGrainedDependencyFormat.cpp`): accepts raw
values below `aspectCount` (= 2). -/
def getDeclAspect (declAspect : Nat) : Option DeclAspect :=
  match declAspect with
  | 0 => some .interface
  | 1 => some .implementation
  | _ => none

/-- `DependencyKey`: `(kind, aspect, context, name)`. Modelled from the
spec's dependency-key data model (the class itself is not under `src/`). -/
structure DependencyKey where
  kind : NodeKind
  aspect : DeclAspect
  context : String
  name : String
deriving DecidableEq, Repr

/-- `ModuleDepGraphNode`. Modelled from the spec's node data model
(`(key, fingerprint, provides, artifact_path)`); the class is not under
`src/`. Fingerprints are carried as their raw strings. The deserializer
constructs nodes from `(key, fingerprint, swiftDeps)` alone, so the
provides flag is derived from the presence of the artifact path (see
`getIsProvides`). -/
structure ModuleDepGraphNode where
  key : DependencyKey
  fingerprint : Option String
  swiftDeps : Option String
deriving DecidableEq, Repr

/-- `ModuleDepGraphNode::getIsProvides`. Modelled from the spec: a node is
a provides node when it carries its owning file's artifact path. -/
def ModuleDepGraphNode.getIsProvides (n : ModuleDepGraphNode) : Bool :=
  n.swiftDeps.isSome

/-- `ModuleDepGraphNode::getSwiftDepsOrEmpty`. -/
def ModuleDepGraphNode.getSwiftDepsOrEmpty (n : ModuleDepGraphNode) : String :=
  n.swiftDeps.getD ""

/-- `ModuleDepGraph`, restricted to the state the codec reads and writes:
the nodes (in `forEachNode` traversal order) and the set of incremental
external dependencies (in iteration order). Modelled from the spec's
module-graph data model; the class is not under `src/`. -/
structure ModuleDepGraph where
  nodes : List ModuleDepGraphNode
  incrementalExternalDependencies : List String
deriving DecidableEq, Repr

/-- `ModuleDepGraph::addToMap`: appends the freshly allocated node. -/
def ModuleDepGraph.addToMap (g : ModuleDepGraph) (n : ModuleDepGraphNode) : ModuleDepGraph :=
  { g with nodes := g.nodes ++ [n] }

/-- `ModuleDepGraph::insertIncrementalExternalDependency`: set insertion
(no duplicates). -/
def ModuleDepGraph.insertIncrementalExternalDependency
    (g : ModuleDepGraph) (dep : String) : ModuleDepGraph :=
  if dep ∈ g.incrementalExternalDependencies then g
  else { g with incrementalExternalDependencies := g.incrementalExternalDependencies ++ [dep] }

/-- The empty module graph the deserializer populates. -/
def ModuleDepGraph.empty : ModuleDepGraph :=
  ⟨[], []⟩

/-- One record of the artifact's record block (`record_block` in
`DriverDependencyGraphFormat.h`). -/
inductive Record
  | metadata (major minor : Nat) (compilerVersion : String)
  | moduleDepGraphNode (kind aspect context : Nat) (nameId : Nat)
      (isProvides hasSwiftdeps swiftDepsId : Nat)
  | fingerprintNode (blob : String)
  | identifierNode (blob : String)
  | incrementalExternalDependencyNode (blob : String)
deriving DecidableEq, Repr

/-- `Deserializer::getIdentifier(n)`: 0 is the empty identifier, any other
value is a 1-based index into the identifiers read so far. -/
def getIdentifierAt (identifiers : List String) (n : Nat) : Option String :=
  match n with
  | 0 => some ""
  | m + 1 => identifiers.get? m

/-- `Deserializer::readMetadata` as an error flag: true (error) unless the
record is a `METADATA` record carrying exactly the current major and minor
versions. -/
def readMetadataErr (r : Record) : Bool :=
  match r with
  | .metadata major minor _ =>
      if major ≠ DRIVER_DEPENDENCY_FORMAT_VERSION_MAJOR ∨
         minor ≠ DRIVER_DEPENDENCY_FORMAT_VERSION_MINOR then true else false
  | _ => true

/-- Set the fingerprint of the most recently decoded node
(`node->setFingerprint(...)`: the `node` pointer designates the last node
created and added to the graph). -/
def setLastFingerprint (nodes : List ModuleDepGraphNode) (fp : String) :
    List ModuleDepGraphNode :=
  match nodes with
  | [] => []
  | _ =>
      nodes.dropLast ++
        (match nodes.getLast? with
         | some n => [{ n with fingerprint := some fp }]
         | none => [])

/-- The record loop of `Deserializer::readDriverDependencyGraph`.  Fatal
decode errors (`llvm::report_fatal_error`) are modelled as `none`.  State:
the identifiers read so far, the graph built so far, and whether a node
record has been seen (the `node` pointer being non-null).  Faithful
details: the node record's swiftdeps lookup reads the *name* identifier ID
(`getIdentifier(nameID)` in the source), the `isProvides` and
`swiftDepsId` fields are read but never used, `IDENTIFIER_NODE` is
rejected after the first node, and external-dependency records are
rejected before it. -/
def decodeRecords : List Record → List String → ModuleDepGraph → Bool →
    Option ModuleDepGraph
  | [], _, g, _ => some g
  | r :: rs, ids, g, nodeSeen =>
      match r with
      | .metadata _ _ _ => none
      | .moduleDepGraphNode kindId aspectId contextId nameId _isProvides hasSwiftdeps _swiftDepsId =>
          match getNodeKind kindId, getDeclAspect aspectId,
                getIdentifierAt ids contextId, getIdentifierAt ids nameId with
          | some kind, some aspect, some context, some name =>
              if hasSwiftdeps ≠ 0 then
                match getIdentifierAt ids nameId with
                | some swiftDeps =>
                    decodeRecords rs ids
                      (g.addToMap ⟨⟨kind, aspect, context, name⟩, none, some swiftDeps⟩) true
                | none => none
              else
                decodeRecords rs ids
                  (g.addToMap ⟨⟨kind, aspect, context, name⟩, none, none⟩) true
          | _, _, _, _ => none
      | .fingerprintNode blob =>
          if nodeSeen then
            decodeRecords rs ids { g with nodes := setLastFingerprint g.nodes blob } true
          else none
      | .identifierNode blob =>
          if nodeSeen then none
          else decodeRecords rs (ids ++ [blob]) g nodeSeen
      | .incrementalExternalDependencyNode blob =>
          if nodeSeen then
            decodeRecords rs ids (g.insertIncrementalExternalDependency blob) true
          else none

/-- `Deserializer::readDriverDependencyGraph`, as the graph produced on
success: the signature and block structure are checked by the bitstream
layer, then `readMetadata` must accept the first record, then the record
loop runs.  `none` covers both the error-flag returns and the fatal decode
errors. -/
def deserialize (records : List Record) : Option ModuleDepGraph :=
  match records with
  | [] => none
  | r :: rs =>
      if readMetadataErr r then none
      else decodeRecords rs [] ModuleDepGraph.empty false

/-- `Serializer::addIdentifier`: skip the empty string, otherwise record a
new identifier the first time it is seen (insertion order preserved). -/
def addIdentifier (ids : List String) (str : String) : List String :=
  if str = "" then ids
  else if str ∈ ids then ids
  else ids ++ [str]

/-- `Serializer::getIdentifier`: 0 for the empty string, otherwise the
1-based position of the (previously added) string. -/
def getSerializedIdentifier (ids : List String) (str : String) : Nat :=
  if str = "" then 0
  else (ids.indexOf str) + 1

/-- The identifier-collection pass of
`Serializer::writeDriverDependencyGraph`: `addIdentifier("")` (a no-op),
then for each node its swiftdeps path (when present), its key's context
and its key's name, then every incremental external dependency. -/
def collectIdentifiers (g : ModuleDepGraph) : List String :=
  let afterNodes :=
    g.nodes.foldl
      (fun acc node =>
        let acc :=
          match node.swiftDeps with
          | some sd => addIdentifier acc sd
          | none => acc
        let acc := addIdentifier acc node.key.context
        addIdentifier acc node.key.name)
      (addIdentifier [] "")
  g.incrementalExternalDependencies.foldl addIdentifier afterNodes

/-- The compiler version blob written into the metadata record
(`version::getSwiftFullVersion()`); its contents are ignored by the
decoder. -/
def swiftFullVersion : String := "Swift version"

/-- The records one node contributes: its `MODULE_DEP_GRAPH_NODE` record
followed by a `FINGERPRINT_NODE` record when it has a fingerprint. -/
def nodeRecords (ids : List String) (node : ModuleDepGraphNode) : List Record :=
  Record.moduleDepGraphNode
      node.key.kind.toNat
      node.key.aspect.toNat
      (getSerializedIdentifier ids node.key.context)
      (getSerializedIdentifier ids node.key.name)
      (if node.getIsProvides then 1 else 0)
      (if node.swiftDeps.isSome then 1 else 0)
      (getSerializedIdentifier ids node.getSwiftDepsOrEmpty)
    :: (match node.fingerprint with
        | some fp => [Record.fingerprintNode fp]
        | none => [])

/-- `Serializer::writeDriverDependencyGraph` as the record sequence it
emits: the metadata record, the collected identifiers, each node (with its
optional fingerprint record), then the external dependencies. -/
def serialize (g : ModuleDepGraph) : List Record :=
  let ids := collectIdentifiers g
  Record.metadata DRIVER_DEPENDENCY_FORMAT_VERSION_MAJOR
      DRIVER_DEPENDENCY_FORMAT_VERSION_MINOR swiftFullVersion
    :: (ids.map Record.identifierNode
        ++ (g.nodes.map (nodeRecords ids)).flatten
        ++ g.incrementalExternalDependencies.map Record.incrementalExternalDependencyNode)

/-- `swift::readDriverDependencyGraph(path, g)` (the top-level entry
point): `none` models a file that cannot be opened (returns `false`);
otherwise the function returns the *negation* of the deserializer's
error flag (`return !deserializer.readDriverDependencyGraph(g)`). -/
def readDriverDependencyGraphTop (file : Option (List Record)) : Bool :=
  match file with
  | none => false
  | some records => (deserialize records).isSome

/-! ## Dependency verifier (`DependencyVerifier.cpp`) -/

/-- `Expectation::Kind`.  `Superclass` and `Conformance` are aliases of
`PotentialMember` in the source enum. -/
inductive EKind
  | negative
  | provides
  | member
  | potentialMember
  | dynamicMember
deriving DecidableEq, Repr

/-- The kinds an `Obligation` may carry: the `Obligation` constructor
asserts its kind is not `Negative`. -/
inductive OblKind
  | provides
  | member
  | potentialMember
  | dynamicMember
deriving DecidableEq, Repr

/-- The `Expectation::Kind` value corresponding to an obligation kind. -/
def OblKind.toEKind : OblKind → EKind
  | .provides => .provides
  | .member => .member
  | .potentialMember => .potentialMember
  | .dynamicMember => .dynamicMember

/-- `Expectation::Scope`. -/
inductive EScope
  | scopeNone
  | scopePrivate
  | scopeCascading
deriving DecidableEq, Repr

/-- `Obligation::State`. -/
inductive OState
  | owed
  | fulfilled
  | failed
deriving DecidableEq, Repr

/-- `Obligation::Key`: the name and kind used to index the obligation map. -/
structure OKey where
  name : String
  kind : EKind
deriving DecidableEq, Repr

/-- An `Obligation`: name, kind, scope, and fulfillment state. -/
structure Obligation where
  name : String
  kind : OblKind
  scope : EScope
  state : OState
deriving DecidableEq, Repr

/-- The `Obligation` constructor: every obligation begins `Owed` (and the
constructor's assert rules out the `Negative` kind, enforced here by
`OblKind`). -/
def Obligation.make (name : String) (kind : OblKind) (scope : EScope) : Obligation :=
  ⟨name, kind, scope, .owed⟩

/-- `ObligationMap` (an `llvm::MapVector`): insertion-ordered entries with
unique keys. -/
abbrev ObligationMap : Type := List (OKey × Obligation)

/-- Lookup in an `ObligationMap` (first binding of the key). -/
def omFind : ObligationMap → OKey → Option Obligation
  | [], _ => none
  | (k1, o) :: m, k => if k1 = k then some o else omFind m k

/-- `MapVector::insert`: a no-op when the key is already bound, otherwise
appends the new binding. -/
def omInsert (m : ObligationMap) (k : OKey) (o : Obligation) : ObligationMap :=
  if (omFind m k).isSome then m else m ++ [(k, o)]

/-- One entry emitted by
`ReferencedNameTracker::enumerateAllUses(includeIntrafileDeps, DT, fn)`:
the callback receives `(kind, context, name, isCascadingUse)`. -/
structure TrackerEntry where
  kind : NodeKind
  context : String
  name : String
  isCascadingUse : Bool
deriving DecidableEq, Repr

/-- The scope attached to a tracked use: cascading uses become
`Scope::Cascading`, the rest `Scope::Private`. -/
def scopeOfCascade (isCascadingUse : Bool) : EScope :=
  if isCascadingUse then .scopeCascading else .scopePrivate

/-- One step of the `enumerateAllUses` callback in
`DependencyVerifier::constructObligations`, parameterised by the
demangler (`copyDemangledTypeName`, an external collaborator).  Faithful
details: `externalDepend` and `nominal` entries return without inserting
anything; `member` keys are `demangledContext ++ "." ++ name` and the
obligation's name field stores the raw context, as in the source. -/
def constructObligationsStep (dem : String → String) (m : ObligationMap)
    (e : TrackerEntry) : ObligationMap :=
  match e.kind with
  | .externalDepend => m
  | .nominal => m
  | .potentialMember =>
      omInsert m ⟨dem e.context, .potentialMember⟩
        (Obligation.make e.name .potentialMember (scopeOfCascade e.isCascadingUse))
  | .member =>
      omInsert m ⟨dem e.context ++ "." ++ e.name, .member⟩
        (Obligation.make e.context .member (scopeOfCascade e.isCascadingUse))
  | .dynamicLookup =>
      omInsert m ⟨e.name, .dynamicMember⟩
        (Obligation.make e.context .dynamicMember (scopeOfCascade e.isCascadingUse))
  | .topLevel =>
      omInsert m ⟨e.name, .provides⟩ (Obligation.make e.name .provides .scopeNone)
  | .sourceFileProvide =>
      omInsert m ⟨e.name, .provides⟩ (Obligation.make e.name .provides .scopeNone)

/-- `DependencyVerifier::constructObligations`: fold the callback over the
entries the tracker enumerates, starting from an empty map. -/
def constructObligations (dem : String → String) (entries : List TrackerEntry) :
    ObligationMap :=
  entries.foldl (constructObligationsStep dem) []

/-- The key under which `constructObligationsStep` files an entry (defined
for the kinds that are not skipped). -/
def entryKey (dem : String → String) (e : TrackerEntry) : OKey :=
  match e.kind with
  | .potentialMember => ⟨dem e.context, .potentialMember⟩
  | .member => ⟨dem e.context ++ "." ++ e.name, .member⟩
  | .dynamicLookup => ⟨e.name, .dynamicMember⟩
  | _ => ⟨e.name, .provides⟩

/-- An `Expectation`, reduced to the data the verified routines consume:
its kind, scope, and the `{{...}}` message text. -/
structure Expectation where
  kind : EKind
  scope : EScope
  message : String
deriving DecidableEq, Repr

/-- `NegativeExpectationMap` (an `llvm::StringMap` keyed by the message
text), as an association list. -/
def negLookup : List (String × Expectation) → String → Option Expectation
  | [], _ => none
  | (s, e) :: m, k => if s = k then some e else negLookup m k

/-- A rendered verifier diagnostic beginning with the word `unexpected`
(every diagnostic of `verifyNegativeExpectations` and
`diagnoseUnfulfilledObligations` has this shape). -/
def mkUnexpectedDiag (rest : String) : String :=
  "unexpected " ++ rest

/-- The body `verifyNegativeExpectations` runs on one obligation-map entry
(via `forEachOwedObligation`): for an owed obligation whose key name is
bound in the negative-expectation map, emit
`"unexpected dependency exists: {0}"` and fail the obligation. -/
def verifyNegStep (negs : List (String × Expectation)) (p : OKey × Obligation) :
    (OKey × Obligation) × List String :=
  if p.2.state = .owed then
    match negLookup negs p.1.name with
    | some e =>
        ((p.1, { p.2 with state := .failed }),
         [mkUnexpectedDiag ("dependency exists: " ++ e.message)])
    | none => (p, [])
  else (p, [])

/-- `DependencyVerifier::verifyNegativeExpectations`: the updated
obligation map and the diagnostics appended to `Errors`, in iteration
order. -/
def verifyNegativeExpectations (obs : ObligationMap)
    (negs : List (String × Expectation)) : ObligationMap × List String :=
  match obs with
  | [] => ([], [])
  | p :: rest =>
      let r := verifyNegStep negs p
      let tailResult := verifyNegativeExpectations rest negs
      (r.1 :: tailResult.1, r.2 ++ tailResult.2)

/-- `Obligation::describeCascade`: `llvm_unreachable` for `Scope::None`,
modelled as `none`. -/
def describeCascade : EScope → Option String
  | .scopeNone => none
  | .scopePrivate => some "non-cascading"
  | .scopeCascading => some "cascading"

/-- The diagnostics `diagnoseUnfulfilledObligations` emits for one
obligation-map entry: nothing for a non-owed obligation; for an owed one,
the kind-specific "unexpected ..." error followed by its note.  `none`
models the `describeCascade` unreachable on a scope-less obligation. -/
def diagnoseStep (p : OKey × Obligation) : Option (List String) :=
  if p.2.state = .owed then
    match p.2.kind with
    | .member =>
        (describeCascade p.2.scope).map fun c =>
          [mkUnexpectedDiag (c ++ " dependency: " ++ p.1.name),
           "expect a member dependency"]
    | .dynamicMember =>
        (describeCascade p.2.scope).map fun c =>
          [mkUnexpectedDiag (c ++ " dynamic member dependency: " ++ p.2.name),
           "expect a dynamic member dependency"]
    | .potentialMember =>
        (describeCascade p.2.scope).map fun c =>
          [mkUnexpectedDiag (c ++ " potential member dependency: " ++ p.1.name),
           "expect a potential member"]
    | .provides =>
        some [mkUnexpectedDiag ("provided entity: " ++ p.2.name),
              "expect a provide"]
  else some []

/-- `DependencyVerifier::diagnoseUnfulfilledObligations`: the diagnostics
appended for every still-owed obligation, in iteration order. -/
def diagnoseUnfulfilledObligations : ObligationMap → Option (List String)
  | [] => some []
  | p :: rest =>
      match diagnoseStep p, diagnoseUnfulfilledObligations rest with
      | some d, some ds => some (d ++ ds)
      | _, _ => none

/-- The loop body of `combine_range` (the do-while): combine each
remaining element in order. -/
def combineRangeLoop (h : SipHasher) : List Nat → SipHasher
  | [] => h
  | b :: bs => combineRangeLoop (h.combineU8 b) bs

/-- `SipHasher::combine_range(first, last)` instantiated at byte-sized
elements (as by the `std::basic_string` overload): an empty range combines
the `int` literal `0`; a non-empty range runs the do-while loop over the
elements. -/
def SipHasher.combineRangeBytes (h : SipHasher) : List Nat → SipHasher
  | [] => h.combineInt32 0
  | b :: bs => combineRangeLoop (h.combineU8 b) bs

/-! ## Theorems -/

/-- Claim C2: the stable hash is claimed to be a function of the
concatenation of absorbed bytes only, so absorbing the bytes 1..8 in one
8-byte `combine` call should equal absorbing them as two 4-byte calls.
The code violates this: the two call sequences finalize to different
values (the 8-byte call's `fillBitsFromBuffer` matches no switch case and
compresses a zero head, dropping the data). -/
theorem stable_hash_partition_dependent :
    SipHasher.finalize
        (SipHasher.append [5, 6, 7, 8]
          (SipHasher.append [1, 2, 3, 4] SipHasher.defaultHasher)) ≠
      SipHasher.finalize
        (SipHasher.append [1, 2, 3, 4, 5, 6, 7, 8] SipHasher.defaultHasher) := by
  decide

/-- Claim C8 (counterexample): hashing an empty range is claimed to change
the hasher state exactly as absorbing the single byte `0x00` would; in the
code `combine_range` on an empty range instead combines the `int` literal
`0` (four zero bytes), and the two final hashes differ. -/
theorem combine_range_empty_not_single_zero_byte :
    SipHasher.finalize (SipHasher.combineRangeBytes SipHasher.defaultHasher []) ≠
      SipHasher.finalize (SipHasher.append [0] SipHasher.defaultHasher) := by
  decide

/-- Helper: the do-while loop of `combine_range` is a left fold of
single-byte combines. -/
theorem combineRangeLoop_eq_foldl (bs : List Nat) (h : SipHasher) :
    combineRangeLoop h bs = bs.foldl (fun acc b => acc.combineU8 b) h := by
  induction bs generalizing h with
  | nil => rfl
  | cons b bs ih => simpa [combineRangeLoop] using ih (h.combineU8 b)

/-- Claim C8 (amended): `combine_range(first, last)` with `first == last`
changes the hasher state exactly as absorbing the four zero bytes of the
`int` literal `0` (not a single zero byte); for a non-empty range it
absorbs each element in order with no extra bytes. -/
theorem combine_range_empty_absorbs_int_zero :
    (∀ h : SipHasher, SipHasher.combineRangeBytes h [] = h.append [0, 0, 0, 0]) ∧
      ∀ (h : SipHasher) (b : Nat) (bs : List Nat),
        SipHasher.combineRangeBytes h (b :: bs) =
          (b :: bs).foldl (fun acc x => acc.combineU8 x) h := by
  refine ⟨fun h => rfl, fun h b bs => ?_⟩
  simpa [SipHasher.combineRangeBytes, List.foldl] using combineRangeLoop_eq_foldl bs (h.combineU8 b)

/-- Claim C3 (counterexample): the decoder is claimed to accept an
artifact with the current major version and a newer minor version.  A
metadata record with version (1, 1) — current major 1, newer minor 1 — is
rejected, while (1, 0) is accepted. -/
theorem metadata_rejects_newer_minor :
    deserialize [Record.metadata 1 1 ""] = none ∧
      deserialize [Record.metadata 1 0 ""] = some ModuleDepGraph.empty := by
  decide

/-- Claim C3 (amended): the decoder's metadata check fails for any
artifact whose major version differs from the current major version *or*
whose minor version differs from the current minor version; decoding
proceeds past the metadata record exactly when (major, minor) = (1, 0). -/
theorem metadata_version_gate :
    ∀ (major minor : Nat) (version : String) (rest : List Record),
      deserialize (Record.metadata major minor version :: rest) =
        if major = DRIVER_DEPENDENCY_FORMAT_VERSION_MAJOR ∧
            minor = DRIVER_DEPENDENCY_FORMAT_VERSION_MINOR then
          decodeRecords rest [] ModuleDepGraph.empty false
        else none := by
  intro major minor version rest
  by_cases h : major = DRIVER_DEPENDENCY_FORMAT_VERSION_MAJOR ∧
      minor = DRIVER_DEPENDENCY_FORMAT_VERSION_MINOR
  · simp [deserialize, readMetadataErr, h.1, h.2]
  · rw [Decidable.not_and_iff_or_not] at h
    rcases h with h | h <;> simp [deserialize, readMetadataErr, h]

/-- Claim C9: in the source as written, the `name` smart-constructor
builds its result with kind `Container`: for every parent path and extras,
`StablePath::name` and `StablePath::container` return equal stable paths
(hence equal fingerprints), every path they produce has kind `Container`,
every root has kind `Module`, and so no smart-constructor ever produces a
path of kind `Name`. -/
theorem name_constructor_is_container :
    ∀ (p : StablePath) (atoms : List HAtom),
      StablePath.name p atoms = StablePath.container p atoms ∧
      (StablePath.name p atoms).all (fun q => q.kind == Component.container) = true ∧
      (StablePath.root atoms).kind = Component.module ∧
      (StablePath.name p atoms).map StablePath.fingerprintOpt =
        (StablePath.container p atoms).map StablePath.fingerprintOpt := by
  intro p atoms
  refine ⟨rfl, ?_, rfl, rfl⟩
  cases h : p.fingerprintOpt <;> simp [StablePath.name, h]

/-- Claim C5 (counterexample): `fingerprint()` is claimed to equal the
stable hash of exactly the triple `(parent_id, kind, extra_hash)` for
every smart-constructed path.  For the root (kind `Module`) path with a
single `uint64_t` extra `7`, the fingerprint differs from the triple hash:
the `Module` case of `fingerprint()` never absorbs the parent ID. -/
theorem fingerprint_not_triple_hash_for_module :
    StablePath.fingerprintOpt (StablePath.root [HAtom.u64 7]) ≠
      some (specHashTriple (StablePath.root [HAtom.u64 7]).parent
        Component.module.toByte (StablePath.root [HAtom.u64 7]).extraData) := by
  decide

/-- Claim C5 (amended): for `Container`- and `name`-constructed paths the
fingerprint is the stable hash of the triple `(parent_id, kind,
extra_hash)`; for `Module` (root) paths the parent ID is not absorbed —
the fingerprint is the hash of `(kind, extra_hash)` alone and is invariant
under the parent field; in every case the fingerprint is a function of
only the three stored fields. -/
theorem fingerprint_kind_cases :
    (∀ (p : StablePath) (atoms : List HAtom) (q : StablePath),
        StablePath.container p atoms = some q →
        q.fingerprintOpt =
          some (specHashTriple q.parent Component.container.toByte q.extraData)) ∧
      (∀ (p : StablePath) (atoms : List HAtom) (q : StablePath),
          StablePath.name p atoms = some q →
          q.fingerprintOpt =
            some (specHashTriple q.parent Component.container.toByte q.extraData)) ∧
      (∀ x y e : Nat,
          StablePath.fingerprintOpt ⟨x, Component.module, e⟩ =
            StablePath.fingerprintOpt ⟨y, Component.module, e⟩) ∧
      ∀ p q : StablePath, p.parent = q.parent → p.kind = q.kind →
        p.extraData = q.extraData → p.fingerprintOpt = q.fingerprintOpt := by
  refine ⟨?_, ?_, fun x y e => rfl, ?_⟩
  · intro p atoms q h
    cases hf : p.fingerprintOpt with
    | none => simp [StablePath.container, hf] at h
    | some fp =>
        simp only [StablePath.container, hf, Option.map_some] at h
        injection h with h
        subst h
        rfl
  · intro p atoms q h
    cases hf : p.fingerprintOpt with
    | none => simp [StablePath.name, hf] at h
    | some fp =>
        simp only [StablePath.name, hf, Option.map_some] at h
        injection h with h
        subst h
        rfl
  · intro p q h1 h2 h3
    cases p
    cases q
    simp_all

/-- Witness for `fingerprint_kind_cases` at a concrete container path. -/
theorem fingerprint_kind_cases_witness :
    ∃ q, StablePath.container (StablePath.root [HAtom.u8 3]) [HAtom.u8 4] = some q ∧
      q.fingerprintOpt =
        some (specHashTriple q.parent Component.container.toByte q.extraData) := by
  have h : ∃ q, StablePath.container (StablePath.root [HAtom.u8 3]) [HAtom.u8 4] = some q := by
    cases hf : (StablePath.root [HAtom.u8 3]).fingerprintOpt with
    | none => simp [StablePath.root, StablePath.fingerprintOpt] at hf
    | some fp =>
        exact ⟨⟨fp, Component.container, hash_all [HAtom.u8 4]⟩,
          by simp [StablePath.container, hf]⟩
  obtain ⟨q, hq⟩ := h
  exact ⟨q, hq, fingerprint_kind_cases.1 _ [HAtom.u8 4] q hq⟩

/-- Claim C6: the tombstone stable path (the default-constructed value,
returned by both `getEmptyKey()` and `getTombstoneKey()`) is never
fingerprinted: its own `fingerprint()` is the unreachable branch, and
`DenseMapInfo::getHashValue` succeeds on every path constructible through
the class interface other than the tombstone, so the unreachable branch is
not hit for any key the hash table may hash. -/
theorem tombstone_never_fingerprinted :
    (denseMapGetEmptyKey = StablePath.tombstoneVal ∧
      denseMapGetTombstoneKey = StablePath.tombstoneVal ∧
      StablePath.tombstoneVal.fingerprintOpt = none) ∧
      ∀ p : StablePath, ReachablePath p → p ≠ StablePath.tombstoneVal →
        (denseMapGetHashValue p).isSome = true := by
  refine ⟨⟨rfl, rfl, rfl⟩, ?_⟩
  intro p hr hne
  induction hr with
  | tomb => exact absurd rfl hne
  | root atoms => simp [denseMapGetHashValue, StablePath.root, StablePath.fingerprintOpt]
  | container p atoms q hp heq ih =>
      cases hf : p.fingerprintOpt with
      | none => simp [StablePath.container, hf] at heq
      | some fp =>
          simp only [StablePath.container, hf, Option.map_some] at heq
          injection heq with heq
          subst heq
          simp [denseMapGetHashValue, StablePath.fingerprintOpt]
  | name p atoms q hp heq ih =>
      cases hf : p.fingerprintOpt with
      | none => simp [StablePath.name, hf] at heq
      | some fp =>
          simp only [StablePath.name, hf, Option.map_some] at heq
          injection heq with heq
          subst heq
          simp [denseMapGetHashValue, StablePath.fingerprintOpt]

/-- Witness for `tombstone_never_fingerprinted` at a concrete root path. -/
theorem tombstone_never_fingerprinted_witness :
    (denseMapGetHashValue (StablePath.root [HAtom.u8 5])).isSome = true :=
  tombstone_never_fingerprinted.2 (StablePath.root [HAtom.u8 5])
    (ReachablePath.root [HAtom.u8 5]) (by decide)

/-- Claim C10: `swift::readDriverDependencyGraph(path, g)` returns `false`
when the file cannot be opened, and otherwise returns the negation of the
deserializer's error flag — `true` exactly when the artifact parsed
successfully, the opposite polarity of the header's "returns true if there
was an error" contract; in particular a freshly serialized empty graph
parses successfully and the function returns `true`. -/
theorem read_graph_polarity :
    readDriverDependencyGraphTop none = false ∧
      (∀ records : List Record,
        readDriverDependencyGraphTop (some records) = (deserialize records).isSome) ∧
      readDriverDependencyGraphTop (some (serialize ModuleDepGraph.empty)) = true := by
  refine ⟨rfl, fun records => rfl, ?_⟩
  decide

/-- The concrete graph exhibiting the artifact round-trip failure: one
node whose key name and swiftdeps (artifact) path differ. -/
def roundTripInput : ModuleDepGraph :=
  { nodes := [{ key := { kind := .topLevel, aspect := .interface,
                         context := "", name := "theName" }
                fingerprint := none
                swiftDeps := some "deps.swiftdeps" }]
    incrementalExternalDependencies := [] }

/-- Claim C1: decoding the artifact written for `roundTripInput` does not
recover the graph: the decoder looks the swiftdeps path up with the
*name* identifier ID (`getIdentifier(nameID)` in
`Deserializer::readDriverDependencyGraph`), so the node comes back with
its artifact path replaced by its name, violating the claimed exact
round-trip of the artifact path. -/
theorem artifact_roundtrip_swiftdeps_bug :
    deserialize (serialize roundTripInput) =
        some { nodes := [{ key := { kind := .topLevel, aspect := .interface,
                                    context := "", name := "theName" }
                           fingerprint := none
                           swiftDeps := some "theName" }]
               incrementalExternalDependencies := [] } ∧
      deserialize (serialize roundTripInput) ≠ some roundTripInput := by
  decide

/-- Claim C4 (counterexample): the verifier is claimed to insert an
obligation for every entry the tracker emits, for all seven node kinds.
`constructObligations` returns early for `nominal` and `externalDepend`
entries, so an enumeration consisting of one entry of each of those kinds
yields an empty obligation map. -/
theorem construct_obligations_skips_nominal :
    constructObligations (fun s => s)
      [⟨NodeKind.nominal, "Ctx", "n", true⟩,
       ⟨NodeKind.externalDepend, "", "/sdk/Foo.swiftmodule", false⟩] = [] := by
  decide

/-- Helper: looking a key up in a concatenation tries the left map first. -/
theorem omFind_append (m m1 : ObligationMap) (k : OKey) :
    omFind (m ++ m1) k =
      match omFind m k with
      | some o => some o
      | none => omFind m1 k := by
  induction m with
  | nil => rfl
  | cons p m ih =>
      obtain ⟨k1, o⟩ := p
      by_cases h : k1 = k <;> simp [omFind, h, ih]

/-- Helper: `omInsert` makes its key present. -/
theorem omFind_omInsert_self (m : ObligationMap) (k : OKey) (o : Obligation) :
    (omFind (omInsert m k o) k).isSome = true := by
  unfold omInsert
  by_cases h : (omFind m k).isSome
  · simp [h]
  · rw [if_neg h, omFind_append]
    cases hm : omFind m k with
    | some o1 => simp [hm] at h
    | none => simp [omFind]

/-- Helper: `omInsert` preserves key presence. -/
theorem omFind_omInsert_mono (m : ObligationMap) (k1 : OKey) (o : Obligation)
    (k : OKey) (h : (omFind m k).isSome = true) :
    (omFind (omInsert m k1 o) k).isSome = true := by
  unfold omInsert
  by_cases h1 : (omFind m k1).isSome
  · simpa [h1] using h
  · rw [if_neg h1, omFind_append]
    cases hm : omFind m k with
    | some o1 => simp [hm]
    | none => simp [hm] at h

/-- Helper: one `constructObligations` step preserves key presence. -/
theorem constructObligationsStep_mono (dem : String → String) (m : ObligationMap)
    (e : TrackerEntry) (k : OKey) (h : (omFind m k).isSome = true) :
    (omFind (constructObligationsStep dem m e) k).isSome = true := by
  unfold constructObligationsStep
  cases e.kind <;>
    first
      | exact h
      | exact omFind_omInsert_mono _ _ _ _ h

/-- Helper: the `constructObligations` fold preserves key presence. -/
theorem constructObligations_foldl_mono (dem : String → String)
    (entries : List TrackerEntry) (m : ObligationMap) (k : OKey)
    (h : (omFind m k).isSome = true) :
    (omFind (entries.foldl (constructObligationsStep dem) m) k).isSome = true := by
  induction entries generalizing m with
  | nil => exact h
  | cons e entries ih =>
      exact ih _ (constructObligationsStep_mono dem m e k h)

/-- Helper: processing an entry of a non-skipped kind makes its key
present. -/
theorem constructObligationsStep_inserts (dem : String → String) (m : ObligationMap)
    (e : TrackerEntry) (h1 : e.kind ≠ NodeKind.nominal)
    (h2 : e.kind ≠ NodeKind.externalDepend) :
    (omFind (constructObligationsStep dem m e) (entryKey dem e)).isSome = true := by
  unfold constructObligationsStep entryKey
  cases hk : e.kind <;>
    first
      | exact absurd hk h1
      | exact absurd hk h2
      | exact omFind_omInsert_self _ _ _

/-- Helper: every obligation in an `omInsert` result whose inputs are all
owed is owed. -/
theorem omInsert_all_owed (m : ObligationMap) (k : OKey) (o : Obligation)
    (hm : ∀ p ∈ m, (p : OKey × Obligation).2.state = OState.owed)
    (ho : o.state = OState.owed) :
    ∀ p ∈ omInsert m k o, (p : OKey × Obligation).2.state = OState.owed := by
  intro p hp
  unfold omInsert at hp
  by_cases h : (omFind m k).isSome
  · exact hm p (by simpa [h] using hp)
  · rw [if_neg h] at hp
    rcases List.mem_append.mp hp with h1 | h1
    · exact hm p h1
    · rcases List.mem_singleton.mp h1 with rfl
      exact ho

/-- Helper: every obligation `constructObligations` accumulates is owed. -/
theorem constructObligations_foldl_owed (dem : String → String)
    (entries : List TrackerEntry) (m : ObligationMap)
    (hm : ∀ p ∈ m, (p : OKey × Obligation).2.state = OState.owed) :
    ∀ p ∈ entries.foldl (constructObligationsStep dem) m,
      (p : OKey × Obligation).2.state = OState.owed := by
  induction entries generalizing m with
  | nil => exact hm
  | cons e entries ih =>
      refine ih _ ?_
      unfold constructObligationsStep
      cases e.kind <;>
        first
          | exact hm
          | exact omInsert_all_owed _ _ _ hm rfl

/-- Claim C4 (amended): for every entry the tracker emits whose kind is
neither `nominal` nor `externalDepend` (those two are skipped by the
source), `constructObligations` has an obligation under the corresponding
key, and every obligation in the map starts in (and still has) state
`Owed`. -/
theorem construct_obligations_inserts_owed :
    ∀ (dem : String → String) (entries : List TrackerEntry) (e : TrackerEntry),
      e ∈ entries → e.kind ≠ NodeKind.nominal → e.kind ≠ NodeKind.externalDepend →
      (omFind (constructObligations dem entries) (entryKey dem e)).isSome = true ∧
        ∀ p ∈ constructObligations dem entries,
          (p : OKey × Obligation).2.state = OState.owed := by
  intro dem entries e hmem h1 h2
  constructor
  · unfold constructObligations
    have main : ∀ (l : List TrackerEntry) (m : ObligationMap), e ∈ l →
        (omFind (l.foldl (constructObligationsStep dem) m) (entryKey dem e)).isSome = true := by
      intro l
      induction l with
      | nil => intro m hm; cases hm
      | cons a l ih =>
          intro m hm
          rcases List.mem_cons.mp hm with rfl | hm
          · exact constructObligations_foldl_mono dem l _ _
              (constructObligationsStep_inserts dem m e h1 h2)
          · exact ih _ hm
    exact main entries [] hmem
  · exact constructObligations_foldl_owed dem entries [] (by intro p hp; cases hp)

/-- Witness for `construct_obligations_inserts_owed` at a concrete
top-level entry. -/
theorem construct_obligations_inserts_owed_witness :
    (omFind (constructObligations (fun s => s) [⟨NodeKind.topLevel, "", "F", false⟩])
        (entryKey (fun s => s) ⟨NodeKind.topLevel, "", "F", false⟩)).isSome = true ∧
      ∀ p ∈ constructObligations (fun s => s) [⟨NodeKind.topLevel, "", "F", false⟩],
        (p : OKey × Obligation).2.state = OState.owed :=
  construct_obligations_inserts_owed (fun s => s) _ _ (List.mem_singleton.mpr rfl)
    (by decide) (by decide)

/-- Claim C7 (counterexample): a `no-dependency` expectation whose key
matches an obligation is claimed to produce an "unexpected dependency
exists" diagnostic and move the obligation to `Failed`.
`verifyNegativeExpectations` only scans *owed* obligations: with an
obligation for key "X" already in state `Fulfilled` and a negative
expectation for "X", no diagnostic is produced and the obligation's state
is unchanged. -/
theorem negative_match_fulfilled_no_diag :
    verifyNegativeExpectations
        [(⟨"X", EKind.provides⟩, ⟨"X", OblKind.provides, EScope.scopeNone, OState.fulfilled⟩)]
        [("X", ⟨EKind.negative, EScope.scopeNone, "X"⟩)] =
      ([(⟨"X", EKind.provides⟩,
         ⟨"X", OblKind.provides, EScope.scopeNone, OState.fulfilled⟩)], []) := by
  decide

/-- Helper: the per-entry results of `verifyNegativeExpectations` land in
its outputs. -/
theorem verifyNeg_mem (obs : ObligationMap) (negs : List (String × Expectation))
    (p : OKey × Obligation) (hp : p ∈ obs) :
    (verifyNegStep negs p).1 ∈ (verifyNegativeExpectations obs negs).1 ∧
      ∀ d ∈ (verifyNegStep negs p).2, d ∈ (verifyNegativeExpectations obs negs).2 := by
  induction obs with
  | nil => cases hp
  | cons a obs ih =>
      rcases List.mem_cons.mp hp with rfl | hp
      · exact ⟨List.mem_cons_self _ _, fun d hd => List.mem_append.mpr (Or.inl hd)⟩
      · obtain ⟨h1, h2⟩ := ih hp
        exact ⟨List.mem_cons_of_mem _ h1,
          fun d hd => List.mem_append.mpr (Or.inr (h2 d hd))⟩

/-- Helper: an owed obligation with a kind-consistent scope yields its
"unexpected ..." diagnostic from `diagnoseStep`. -/
theorem diagnoseStep_owed (p : OKey × Obligation)
    (hscope : p.2.kind = OblKind.provides ∨ p.2.scope ≠ EScope.scopeNone)
    (howed : p.2.state = OState.owed) :
    ∃ ds, diagnoseStep p = some ds ∧ ∃ rest, mkUnexpectedDiag rest ∈ ds := by
  unfold diagnoseStep
  rw [if_pos howed]
  cases hk : p.2.kind with
  | provides => exact ⟨_, rfl, _, List.mem_cons_self _ _⟩
  | member =>
      rcases hscope with h | h
      · rw [hk] at h; cases h
      · cases hs : p.2.scope with
        | scopeNone => exact absurd hs h
        | scopePrivate => exact ⟨_, rfl, _, List.mem_cons_self _ _⟩
        | scopeCascading => exact ⟨_, rfl, _, List.mem_cons_self _ _⟩
  | potentialMember =>
      rcases hscope with h | h
      · rw [hk] at h; cases h
      · cases hs : p.2.scope with
        | scopeNone => exact absurd hs h
        | scopePrivate => exact ⟨_, rfl, _, List.mem_cons_self _ _⟩
        | scopeCascading => exact ⟨_, rfl, _, List.mem_cons_self _ _⟩
  | dynamicMember =>
      rcases hscope with h | h
      · rw [hk] at h; cases h
      · cases hs : p.2.scope with
        | scopeNone => exact absurd hs h
        | scopePrivate => exact ⟨_, rfl, _, List.mem_cons_self _ _⟩
        | scopeCascading => exact ⟨_, rfl, _, List.mem_cons_self _ _⟩

/-- Claim C7 (amended): at verifier termination every obligation still in
state `Owed` produces an "unexpected ..." diagnostic (provided, as
`constructObligations` guarantees, that non-`provides` obligations carry a
cascade scope), and every `no-dependency` expectation whose key matches an
*owed* obligation produces an "unexpected dependency exists" diagnostic
and moves that obligation to state `Failed`. -/
theorem verifier_owed_diagnostics :
    (∀ obs : ObligationMap,
        (∀ p ∈ obs, (p : OKey × Obligation).2.kind = OblKind.provides ∨
          (p : OKey × Obligation).2.scope ≠ EScope.scopeNone) →
        ∃ ds, diagnoseUnfulfilledObligations obs = some ds ∧
          ∀ p ∈ obs, (p : OKey × Obligation).2.state = OState.owed →
            ∃ rest, mkUnexpectedDiag rest ∈ ds) ∧
      ∀ (obs : ObligationMap) (negs : List (String × Expectation))
        (p : OKey × Obligation), p ∈ obs → p.2.state = OState.owed →
        ∀ e, negLookup negs p.1.name = some e →
          (p.1, { p.2 with state := OState.failed }) ∈
              (verifyNegativeExpectations obs negs).1 ∧
            mkUnexpectedDiag ("dependency exists: " ++ e.message) ∈
              (verifyNegativeExpectations obs negs).2 := by
  constructor
  · intro obs hscope
    induction obs with
    | nil => exact ⟨[], rfl, fun p hp => absurd hp (List.not_mem_nil p)⟩
    | cons a obs ih =>
        obtain ⟨ds, hds, hmem⟩ := ih fun p hp => hscope p (List.mem_cons_of_mem _ hp)
        by_cases howed : a.2.state = OState.owed
        · obtain ⟨da, hda, rest, hrest⟩ :=
            diagnoseStep_owed a (hscope a (List.mem_cons_self _ _)) howed
          refine ⟨da ++ ds, ?_, ?_⟩
          · unfold diagnoseUnfulfilledObligations
            rw [hda, hds]
          · intro p hp hpowed
            rcases List.mem_cons.mp hp with rfl | hp
            · exact ⟨rest, List.mem_append.mpr (Or.inl hrest)⟩
            · obtain ⟨r, hr⟩ := hmem p hp hpowed
              exact ⟨r, List.mem_append.mpr (Or.inr hr)⟩
        · have hda : diagnoseStep a = some [] := by
            unfold diagnoseStep
            rw [if_neg howed]
          refine ⟨[] ++ ds, ?_, ?_⟩
          · unfold diagnoseUnfulfilledObligations
            rw [hda, hds]
          · intro p hp hpowed
            rcases List.mem_cons.mp hp with rfl | hp
            · exact absurd hpowed howed
            · obtain ⟨r, hr⟩ := hmem p hp hpowed
              exact ⟨r, List.mem_append.mpr (Or.inr hr)⟩
  · intro obs negs p hp howed e he
    obtain ⟨h1, h2⟩ := verifyNeg_mem obs negs p hp
    have hstep : verifyNegStep negs p =
        ((p.1, { p.2 with state := OState.failed }),
         [mkUnexpectedDiag ("dependency exists: " ++ e.message)]) := by
      unfold verifyNegStep
      rw [if_pos howed, he]
    rw [hstep] at h1 h2
    exact ⟨h1, h2 _ (List.mem_singleton.mpr rfl)⟩

/-- Witness for `verifier_owed_diagnostics` at a concrete owed obligation
with a matching negative expectation. -/
theorem verifier_owed_diagnostics_witness :
    (∃ ds, diagnoseUnfulfilledObligations
        [(⟨"Y", EKind.provides⟩, Obligation.make "Y" OblKind.provides EScope.scopeNone)] =
          some ds ∧
        ∀ p ∈ [(⟨"Y", EKind.provides⟩,
            Obligation.make "Y" OblKind.provides EScope.scopeNone)],
          (p : OKey × Obligation).2.state = OState.owed →
          ∃ rest, mkUnexpectedDiag rest ∈ ds) ∧
      ((⟨"Y", EKind.provides⟩ : OKey),
          { (Obligation.make "Y" OblKind.provides EScope.scopeNone) with
              state := OState.failed }) ∈
          (verifyNegativeExpectations
            [(⟨"Y", EKind.provides⟩, Obligation.make "Y" OblKind.provides EScope.scopeNone)]
            [("Y", ⟨EKind.negative, EScope.scopeNone, "neg"⟩)]).1 ∧
        mkUnexpectedDiag ("dependency exists: " ++ "neg") ∈
          (verifyNegativeExpectations
            [(⟨"Y", EKind.provides⟩, Obligation.make "Y" OblKind.provides EScope.scopeNone)]
            [("Y", ⟨EKind.negative, EScope.scopeNone, "neg"⟩)]).2 :=
  ⟨verifier_owed_diagnostics.1 _ (by decide),
   verifier_owed_diagnostics.2 _ _ _ (List.mem_singleton.mpr rfl) rfl
     ⟨EKind.negative, EScope.scopeNone, "neg"⟩ rfl⟩
